import Mathlib

/-
Verification of the visual-regression-testing tool's comparison engine
(`image_comparison.py`), capture engine (`browser_automation.py`) and
orchestration loop (`app.py`).

Modelling conventions:
* A PIL RGB image is a width, a height, and a total pixel function; pixel
  channel values are natural numbers (uint8 values lie in 0..255, but no
  upper bound is assumed unless a theorem needs one).
* IEEE floating point arithmetic is idealised as exact arithmetic over ℚ
  (and over ℝ where a square root is required, namely OpenCV's histogram
  correlation).  The one place float semantics matter is skimage's SSIM on
  a constant image: there `data_range = 0` makes every windowed SSIM value
  0/0 = NaN, `np.mean` propagates the NaN, and CPython's `max(0, nan)`
  returns 0.  The embedding tracks this explicitly via `ssimUndefined`
  (some window has a zero denominator) and floors the SSIM to 0 in that
  case, which reproduces the float pipeline's observable result.
* Python exceptions are modelled with `Except String`; a `try/except`
  block is a `match` on the body's result.
-/

namespace VRT

/-- An RGB pixel: (red, green, blue) channel values. -/
abbrev RGB : Type := ℕ × ℕ × ℕ

/-- A raster image in the PIL RGB model: dimensions plus a pixel map.
`pix x y` is the pixel in column `x` (0 ≤ x < width) and row `y`
(0 ≤ y < height); values outside those bounds are irrelevant padding. -/
structure Img where
  width : ℕ
  height : ℕ
  pix : ℕ → ℕ → RGB

/-- The white background pixel used by `resize_images_to_match`
(`Image.new('RGB', …, 'white')`). -/
def whitePixel : RGB := (255, 255, 255)

/-- One arm of `resize_images_to_match`: if the image does not already have
the target size, paste it at the origin of a white canvas of the target
size (`Image.new` + `paste((0,0))`); otherwise return it unchanged. -/
def padToCanvas (i : Img) (tw th : ℕ) : Img :=
  if i.width = tw ∧ i.height = th then i
  else ⟨tw, th, fun x y => if x < i.width ∧ y < i.height then i.pix x y else whitePixel⟩

/-- `ImageComparator.resize_images_to_match`: pad both images to the
element-wise maximum of the two sizes. -/
def resize_images_to_match (i1 i2 : Img) : Img × Img :=
  (padToCanvas i1 (max i1.width i2.width) (max i1.height i2.height),
   padToCanvas i2 (max i1.width i2.width) (max i1.height i2.height))

/-- OpenCV `cv2.cvtColor(·, cv2.COLOR_RGB2GRAY)` on one pixel: fixed-point
luma `(4899·R + 9617·G + 1868·B + 2^13) >> 14` (OpenCV's R2Y/G2Y/B2Y
coefficients at `yuv_shift = 14`). -/
def grayOf (p : RGB) : ℕ := (4899 * p.1 + 9617 * p.2.1 + 1868 * p.2.2 + 8192) / 16384

/-- All grayscale values of an image, row-major (used for `gray1.max()` and
`gray1.min()`). -/
def grayValues (i : Img) : List ℕ :=
  (List.range i.height).flatMap fun y => (List.range i.width).map fun x => grayOf (i.pix x y)

/-- `gray1.max()` (0 on an empty image; `np.max` actually raises there, a
case the callers below rule out before use). -/
def grayMax (i : Img) : ℕ := (grayValues i).foldr max 0

/-- `gray1.min()` (0 on an empty image). -/
def grayMin (i : Img) : ℕ :=
  match grayValues i with
  | [] => 0
  | a :: t => t.foldr min a

/-- The `data_range` argument passed to `ssim`:
`gray1.max() - gray1.min()` (computed from the first image only). -/
def dataRange (i : Img) : ℕ := grayMax i - grayMin i

/-! ### skimage `structural_similarity`

Defaults for 2-D uint8 input: `win_size = 7`, uniform (non-Gaussian)
windows, `use_sample_covariance = True` (so `cov_norm = 49/48`),
`K1 = 0.01`, `K2 = 0.03`.  After the uniform filter the result is cropped
by `pad = 3` on every side, so only windows lying entirely inside the
image contribute; we index those windows by their top-left corner. -/

/-- The 7×7 window offsets. -/
def win : Finset (ℕ × ℕ) := Finset.range 7 ×ˢ Finset.range 7

/-- Sum of `f` over the 7×7 window with top-left corner `(x, y)`. -/
def wsum (f : ℕ → ℕ → ℚ) (x y : ℕ) : ℚ :=
  ∑ p ∈ win, f (x + p.1) (y + p.2)

/-- `scipy.ndimage.uniform_filter` value for the window at `(x, y)`. -/
def wmean (f : ℕ → ℕ → ℚ) (x y : ℕ) : ℚ := wsum f x y / 49

/-- `cov_norm = NP / (NP - 1)` with `NP = 7 * 7`. -/
def covNorm : ℚ := 49 / 48

/-- `C1 = (K1 * data_range)^2` with `K1 = 0.01`. -/
def ssimC1 (dr : ℕ) : ℚ := ((dr : ℚ) / 100) ^ 2

/-- `C2 = (K2 * data_range)^2` with `K2 = 0.03`. -/
def ssimC2 (dr : ℕ) : ℚ := (3 * (dr : ℚ) / 100) ^ 2

/-- The four per-window quantities `A1, A2, B1, B2` of
`structural_similarity` (for the window at top-left corner `(x, y)`). -/
structure WinStats where
  A1 : ℚ
  A2 : ℚ
  B1 : ℚ
  B2 : ℚ

/-- Per-window statistics of `structural_similarity`:
`ux, uy` are windowed means, `vx, vy, vxy` (co)variances with the sample
correction `cov_norm`, and `A1 = 2·ux·uy + C1`, `A2 = 2·vxy + C2`,
`B1 = ux² + uy² + C1`, `B2 = vx + vy + C2`. -/
def winStats (g1 g2 : ℕ → ℕ → ℚ) (dr : ℕ) (x y : ℕ) : WinStats :=
  let ux := wmean g1 x y
  let uy := wmean g2 x y
  let uxx := wmean (fun a b => g1 a b * g1 a b) x y
  let uyy := wmean (fun a b => g2 a b * g2 a b) x y
  let uxy := wmean (fun a b => g1 a b * g2 a b) x y
  let vx := covNorm * (uxx - ux * ux)
  let vy := covNorm * (uyy - uy * uy)
  let vxy := covNorm * (uxy - ux * uy)
  ⟨2 * ux * uy + ssimC1 dr, 2 * vxy + ssimC2 dr,
   ux * ux + uy * uy + ssimC1 dr, vx + vy + ssimC2 dr⟩

/-- The per-window SSIM value `S = (A1·A2) / (B1·B2)`.  (In ℚ a zero
denominator yields 0; the float pipeline yields NaN there, which is
accounted for separately by `ssimUndefined`.) -/
def ssimS (g1 g2 : ℕ → ℕ → ℚ) (dr : ℕ) (x y : ℕ) : ℚ :=
  let w := winStats g1 g2 dr x y
  (w.A1 * w.A2) / (w.B1 * w.B2)

/-- Top-left corners of the windows surviving `crop(S, pad)` in a `w × h`
image. -/
def interior (w h : ℕ) : Finset (ℕ × ℕ) :=
  Finset.range (w - 6) ×ˢ Finset.range (h - 6)

/-- `mssim`: the mean of the per-window SSIM values over the cropped
(interior) windows. -/
def mssim (g1 g2 : ℕ → ℕ → ℚ) (w h dr : ℕ) : ℚ :=
  (∑ p ∈ interior w h, ssimS g1 g2 dr p.1 p.2) / (((w - 6) * (h - 6) : ℕ) : ℚ)

/-- Some interior window has `B1·B2 = 0`: there the float pipeline computes
`0/0 = NaN`, `np.mean` propagates it, and `max(0, nan)` in CPython
returns `0`.  (`B1·B2 = 0` forces `A1·A2 = 0` as well — see
`ssim_le_one` below — so no infinity can arise.) -/
def ssimUndefined (g1 g2 : ℕ → ℕ → ℚ) (w h dr : ℕ) : Prop :=
  ∃ p ∈ interior w h,
    (winStats g1 g2 dr p.1 p.2).B1 * (winStats g1 g2 dr p.1 p.2).B2 = 0

instance (g1 g2 : ℕ → ℕ → ℚ) (w h dr : ℕ) : Decidable (ssimUndefined g1 g2 w h dr) :=
  inferInstanceAs (Decidable (∃ p ∈ interior w h, _ = (0 : ℚ)))

/-! ### Pixel-wise similarity -/

/-- All pixel coordinates of a `w × h` image. -/
def coords (w h : ℕ) : Finset (ℕ × ℕ) := Finset.range w ×ˢ Finset.range h

/-- Sum of per-channel absolute differences of two pixels
(`np.abs(img1.astype(float) - img2.astype(float))`, summed over the three
channels). -/
def chanAbsDiff (p q : RGB) : ℚ :=
  |(p.1 : ℚ) - (q.1 : ℚ)| + |(p.2.1 : ℚ) - (q.2.1 : ℚ)| + |(p.2.2 : ℚ) - (q.2.2 : ℚ)|

/-- `pixel_similarity = 1 - np.mean(pixel_diff) / 255` where the mean runs
over all `h·w·3` channel entries. -/
def pixelSimilarity (i1 i2 : Img) : ℚ :=
  1 - (∑ p ∈ coords i1.width i1.height, chanAbsDiff (i1.pix p.1 p.2) (i2.pix p.1 p.2)) /
      (3 * (i1.width : ℚ) * (i1.height : ℚ)) / 255

/-! ### Histogram similarity -/

/-- Channel selector for an RGB pixel. -/
def chanVal (p : RGB) : Fin 3 → ℕ
  | 0 => p.1
  | 1 => p.2.1
  | 2 => p.2.2

/-- `cv2.calcHist([img], [c], None, [256], [0, 256])`: the 256-bin
histogram of channel `c`, i.e. bin `b` counts the pixels whose channel
value is exactly `b`. -/
def calcHist (i : Img) (c : Fin 3) : ℕ → ℕ := fun b =>
  ((coords i.width i.height).filter fun p => chanVal (i.pix p.1 p.2) c = b).card

/-- The 256 histogram bins. -/
def bins : Finset ℕ := Finset.range 256

/-- `cv2.compareHist(h1, h2, cv2.HISTCMP_CORREL)`: the Pearson correlation
`(s12 - s1·s2/N) / sqrt((s11 - s1²/N)(s22 - s2²/N))` with `N = 256`;
OpenCV returns `1` when the denominator is (numerically) zero. -/
noncomputable def histCorrel (h1 h2 : ℕ → ℕ) : ℝ :=
  let s1 : ℚ := ∑ b ∈ bins, (h1 b : ℚ)
  let s2 : ℚ := ∑ b ∈ bins, (h2 b : ℚ)
  let s11 : ℚ := ∑ b ∈ bins, (h1 b : ℚ) ^ 2
  let s22 : ℚ := ∑ b ∈ bins, (h2 b : ℚ) ^ 2
  let s12 : ℚ := ∑ b ∈ bins, (h1 b : ℚ) * (h2 b : ℚ)
  let num : ℚ := s12 - s1 * s2 / 256
  let d1 : ℚ := s11 - s1 * s1 / 256
  let d2 : ℚ := s22 - s2 * s2 / 256
  if d1 * d2 = 0 then 1 else (num : ℝ) / Real.sqrt ((d1 : ℝ) * (d2 : ℝ))

/-- `ImageComparator.calculate_histogram_similarity` on RGB input: the mean
over the three channels of the per-channel correlation floored at 0
(`max(0, correlation)`).  (The function's internal `try/except` can only
fire on malformed input, which the RGB image model excludes; modelled as
total.) -/
noncomputable def calculate_histogram_similarity (i1 i2 : Img) : ℝ :=
  (∑ c : Fin 3, max 0 (histCorrel (calcHist i1 c) (calcHist i2 c))) / 3

/-! ### `calculate_similarity_metrics` and `compare_images` -/

/-- The dict returned by `calculate_similarity_metrics`: the three
normalized metrics (`ssim` and `pixel_similarity` already floored at 0). -/
structure Metrics where
  ssim : ℚ
  pixel_similarity : ℚ
  histogram_similarity : ℝ

/-- `ImageComparator.calculate_similarity_metrics`.  Raises (models as
`.error`): the explicit shape check; `np.max` on a zero-size image (while
evaluating the `data_range` argument); skimage's
`win_size exceeds image extent` check for images smaller than 7×7.
The SSIM entry is `max(0, ssim_score)` — 0 when the float pipeline would
produce NaN (see `ssimUndefined`). -/
noncomputable def calculate_similarity_metrics (i1 i2 : Img) : Except String Metrics :=
  if ¬ (i1.width = i2.width ∧ i1.height = i2.height) then
    .error "Images must have the same dimensions"
  else if i1.width = 0 ∨ i1.height = 0 then
    .error "zero-size array to reduction operation"
  else if i1.width < 7 ∨ i1.height < 7 then
    .error "win_size exceeds image extent"
  else
    let g1 : ℕ → ℕ → ℚ := fun x y => (grayOf (i1.pix x y) : ℚ)
    let g2 : ℕ → ℕ → ℚ := fun x y => (grayOf (i2.pix x y) : ℚ)
    let dr := dataRange i1
    let ssimFloored : ℚ :=
      if ssimUndefined g1 g2 i1.width i1.height dr then 0
      else max 0 (mssim g1 g2 i1.width i1.height dr)
    .ok ⟨ssimFloored, max 0 (pixelSimilarity i1 i2), calculate_histogram_similarity i1 i2⟩

/-- `ImageComparator.create_difference_image`: absolute pixel difference,
grayscale + binary threshold at 30 to get the significant-difference mask,
then 0.7·base blend with mask pixels overpainted in light red
(255, 100, 100).  (`astype(np.uint8)` truncates, hence the floor.) -/
def create_difference_image (i1 i2 : Img) : Img :=
  let r := resize_images_to_match i1 i2
  ⟨(r.1).width, (r.1).height, fun x y =>
    let p := (r.1).pix x y
    let q := (r.2).pix x y
    let d : RGB := (max p.1 q.1 - min p.1 q.1, max p.2.1 q.2.1 - min p.2.1 q.2.1,
                    max p.2.2 q.2.2 - min p.2.2 q.2.2)
    if 30 < grayOf d then (255, 100, 100)
    else (7 * p.1 / 10, 7 * p.2.1 / 10, 7 * p.2.2 / 10)⟩

/-- The dict returned by `compare_images`: on success `error = none` and
`detailed_scores = some (ssim·100, pixel·100, hist·100)`; on an internal
exception `similarity_score = 0`, `is_match = False`, `diff_image = none`,
no detailed scores, and the error string attached. -/
structure ComparisonResult where
  similarity_score : ℝ
  is_match : Prop
  diff_image : Option Img
  detailed_scores : Option (ℝ × ℝ × ℝ)
  error : Option String

/-- `ImageComparator.compare_images`.  `threshold = none` models an omitted
argument (the source then substitutes `self.default_threshold = 95.0`).
The final score is the unweighted mean of the three metrics; the verdict
compares it with `threshold / 100`; the diff image is generated only on a
non-match. -/
noncomputable def compare_images (i1 i2 : Img) (threshold : Option ℚ) : ComparisonResult :=
  let t : ℚ := threshold.getD 95
  let r := resize_images_to_match i1 i2
  match calculate_similarity_metrics r.1 r.2 with
  | .error e => ⟨0, False, none, none, some e⟩
  | .ok m =>
    let final : ℝ := ((m.ssim : ℝ) + (m.pixel_similarity : ℝ) + m.histogram_similarity) / 3
    let isM : Prop := final ≥ (t : ℝ) / 100
    open Classical in
    ⟨final * 100, isM,
     if isM then none else some (create_difference_image r.1 r.2),
     some ((m.ssim : ℝ) * 100, (m.pixel_similarity : ℝ) * 100, m.histogram_similarity * 100),
     none⟩

/-! ### `create_overlay`

PIL operations are modelled by their documented semantics:
`convert('RGBA')` adds an opaque alpha channel, `Image.blend(a, b, α)`
linearly interpolates per channel (the C implementation casts to uint8,
i.e. truncates — exact at the endpoint opacities 0 and 1),
`Image.alpha_composite(dst, src)` is Porter–Duff "src over dst" with
channels rounded back to integers, and `convert('RGB')` drops the alpha
channel. -/

/-- An RGBA pixel. -/
structure PixelRGBA where
  r : ℕ
  g : ℕ
  b : ℕ
  a : ℕ

/-- `convert('RGBA')` on one RGB pixel: alpha 255. -/
def toRGBA (p : RGB) : PixelRGBA := ⟨p.1, p.2.1, p.2.2, 255⟩

/-- One channel of `Image.blend(a, b, α)`: `a + α·(b − a)`, truncated to an
integer (PIL casts the float result to uint8). -/
def blendChan (a b : ℕ) (α : ℚ) : ℕ := (⌊(a : ℚ) + α * ((b : ℚ) - (a : ℚ))⌋).toNat

/-- `Image.blend` on one RGBA pixel. -/
def blendRGBA (p q : PixelRGBA) (α : ℚ) : PixelRGBA :=
  ⟨blendChan p.r q.r α, blendChan p.g q.g α, blendChan p.b q.b α, blendChan p.a q.a α⟩

/-- Round a rational to the nearest natural number. -/
def roundChan (q : ℚ) : ℕ := (round q).toNat

/-- `Image.alpha_composite(dst, src)` on one pixel: Porter–Duff
"src over dst" with alphas scaled to `[0,1]` by `/255`. -/
def alphaCompositePix (dst src : PixelRGBA) : PixelRGBA :=
  let aS : ℚ := (src.a : ℚ) / 255
  let aD : ℚ := (dst.a : ℚ) / 255
  let aO : ℚ := aS + aD * (1 - aS)
  if aO = 0 then ⟨0, 0, 0, 0⟩
  else
    ⟨roundChan (((src.r : ℚ) * aS + (dst.r : ℚ) * aD * (1 - aS)) / aO),
     roundChan (((src.g : ℚ) * aS + (dst.g : ℚ) * aD * (1 - aS)) / aO),
     roundChan (((src.b : ℚ) * aS + (dst.b : ℚ) * aD * (1 - aS)) / aO),
     roundChan (aO * 255)⟩

/-- `ImageComparator.create_overlay`: resize both images to match, blend a
fully transparent white canvas towards image 1 at the given opacity,
alpha-composite the result over image 2, and convert back to RGB.  (The
function's `try/except` fallback is unreachable in the model.) -/
def create_overlay (i1 i2 : Img) (opacity : ℚ) : Img :=
  let r := resize_images_to_match i1 i2
  ⟨(r.1).width, (r.1).height, fun x y =>
    let top := blendRGBA ⟨255, 255, 255, 0⟩ (toRGBA ((r.1).pix x y)) opacity
    let out := alphaCompositePix (toRGBA ((r.2).pix x y)) top
    (out.r, out.g, out.b)⟩

/-! ### `BrowserManager.take_screenshot` (`browser_automation.py`)

Control-flow model.  The effectful Playwright steps are replaced by an
oracle that says which of them raise; the state tracks whether the
per-capture browsing context variable was assigned and whether that
context is still open.  Steps whose failures the source swallows locally
(`document.fonts` wait, `handle_common_overlays`, metric collection,
`_enhance_screenshot_quality`) cannot raise out of their own
`try/except` blocks and so do not appear in the oracle. -/

/-- Which Playwright calls succeed during one `take_screenshot` run. -/
structure CaptureOracle where
  launchFullOk : Bool
  launchMinimalOk : Bool
  newContextOk : Bool
  newPageOk : Bool
  goto1Ok : Bool
  goto2Ok : Bool
  screenshotOk : Bool
  closeOk : Bool

/-- Context bookkeeping for one `take_screenshot` call: was the `context`
variable ever assigned, and is the underlying context currently open.
(`context.close()` disposes the context even when the call itself reports
an error.) -/
structure TSState where
  contextCreated : Bool
  contextOpen : Bool

/-- The browser names accepted by `BrowserManager.get_browser`. -/
def supported_browsers : List String := ["Chrome", "Firefox", "Safari", "Edge"]

/-- `BrowserManager.get_browser`: unsupported names raise `ValueError`; a
launch failure with the full flag set is retried once with minimal flags
and raises only if that also fails. -/
def get_browser (name : String) (o : CaptureOracle) : Except String Unit :=
  if name ∉ supported_browsers then .error ("Unsupported browser: " ++ name)
  else if o.launchFullOk then .ok ()
  else if o.launchMinimalOk then .ok ()
  else .error "launch failed even with minimal options"

/-- The `try:` block of `take_screenshot`, returning the raised exception
(if any) together with the context state at the moment control leaves the
block.  Navigation first waits for `domcontentloaded` and falls back to
`load`; only both failing raises.  On the success path the context is
closed before returning (and a failing `close` call still disposes it). -/
def take_screenshot_body (name : String) (o : CaptureOracle) :
    Except String (Option Unit) × TSState :=
  match get_browser name o with
  | .error e => (.error e, ⟨false, false⟩)
  | .ok _ =>
    if o.newContextOk = false then (.error "new_context failed", ⟨false, false⟩)
    else if o.newPageOk = false then (.error "new_page failed", ⟨true, true⟩)
    else if o.goto1Ok = false ∧ o.goto2Ok = false then (.error "goto failed", ⟨true, true⟩)
    else if o.screenshotOk = false then (.error "screenshot failed", ⟨true, true⟩)
    else if o.closeOk = false then (.error "close failed", ⟨true, false⟩)
    else (.ok (some ()), ⟨true, false⟩)

/-- `BrowserManager.take_screenshot`: the `try:` body wrapped in the
`except Exception:` handler, which closes the context if the `context`
variable was assigned (swallowing any error from that close) and returns
`None`. -/
def take_screenshot (name : String) (o : CaptureOracle) :
    Except String (Option Unit) × TSState :=
  match take_screenshot_body name o with
  | (.ok v, s) => (.ok v, s)
  | (.error _, s) =>
    (.ok none, if s.contextCreated then ⟨s.contextCreated, false⟩ else s)

/-! ### The orchestration loop of `app.py` (`run_tests`)

The triple loop over `url_pairs × browsers × devices` is flattened to a
list of test combinations.  `stop k` is the value of
`st.session_state.stop_testing` observed by the check at the top of the
`k`-th iteration; when it is `true`, `run_tests` returns immediately.
Each combination that does get past the check runs `run_single_test`,
i.e. a staging capture and a production capture. -/

/-- The loop body of `run_tests` from combination index `k` onwards. -/
def runFrom (stop : ℕ → Bool) : ℕ → List α → List α
  | _, [] => []
  | k, c :: rest => if stop k then [] else c :: runFrom stop (k + 1) rest

/-- The combinations actually executed by `run_tests`. -/
def run_tests (combos : List α) (stop : ℕ → Bool) : List α := runFrom stop 0 combos

/-- The capture calls issued by `run_tests`: each executed combination
performs a staging capture (`true`) then a production capture
(`false`). -/
def captures_started (combos : List α) (stop : ℕ → Bool) : List (α × Bool) :=
  (run_tests combos stop).flatMap fun c => [(c, true), (c, false)]

/-! ### Specification predicates and concrete test images -/

/-- The §4.2 step 1 contract for `resize_images_to_match`: both outputs
have the element-wise maximum dimensions, each original is unchanged in
its top-left region, and every added pixel is white (nothing cropped,
nothing scaled). -/
def ReconciledSpec (i1 i2 : Img) : Prop :=
  (resize_images_to_match i1 i2).1.width = max i1.width i2.width ∧
  (resize_images_to_match i1 i2).1.height = max i1.height i2.height ∧
  (resize_images_to_match i1 i2).2.width = max i1.width i2.width ∧
  (resize_images_to_match i1 i2).2.height = max i1.height i2.height ∧
  (∀ x y, x < i1.width → y < i1.height →
    (resize_images_to_match i1 i2).1.pix x y = i1.pix x y) ∧
  (∀ x y, i1.width ≤ x ∨ i1.height ≤ y → x < max i1.width i2.width →
    y < max i1.height i2.height → (resize_images_to_match i1 i2).1.pix x y = whitePixel) ∧
  (∀ x y, x < i2.width → y < i2.height →
    (resize_images_to_match i1 i2).2.pix x y = i2.pix x y) ∧
  (∀ x y, i2.width ≤ x ∨ i2.height ≤ y → x < max i1.width i2.width →
    y < max i1.height i2.height → (resize_images_to_match i1 i2).2.pix x y = whitePixel)

/-- The overlay endpoint contract: at opacity 0 the overlay is
pixel-identical to the second image, at opacity 1 to the first. -/
def OverlayEndpointSpec (i1 i2 : Img) : Prop :=
  ((create_overlay i1 i2 0).width = i2.width ∧ (create_overlay i1 i2 0).height = i2.height ∧
    ∀ x y, (create_overlay i1 i2 0).pix x y = i2.pix x y) ∧
  ((create_overlay i1 i2 1).width = i1.width ∧ (create_overlay i1 i2 1).height = i1.height ∧
    ∀ x y, (create_overlay i1 i2 1).pix x y = i1.pix x y)

/-- A 7×7 all-white image (the smallest constant-colour image that gets
past skimage's `win_size` check). -/
def whiteImg7 : Img := ⟨7, 7, fun _ _ => whitePixel⟩

/-- A 7×7 white image with one black pixel (so `data_range = 255`). -/
def dotImg7 : Img := ⟨7, 7, fun x y => if x = 0 ∧ y = 0 then (0, 0, 0) else whitePixel⟩

/-- A 1×1 white image (valid, non-empty, but smaller than the 7×7 SSIM
window, so `ssim` raises inside `calculate_similarity_metrics`). -/
def tinyImg : Img := ⟨1, 1, fun _ _ => whitePixel⟩

/-- A 2×1 image of a fixed colour (for exercising dimension
reconciliation). -/
def imgA : Img := ⟨2, 1, fun _ _ => (10, 20, 30)⟩

/-- A 1×1 image of a fixed colour (for exercising dimension
reconciliation). -/
def imgB : Img := ⟨1, 1, fun _ _ => (40, 50, 60)⟩

/-- A 1×1 image of a fixed colour (for exercising the overlay). -/
def imgC : Img := ⟨1, 1, fun _ _ => (1, 2, 3)⟩

/-- Another 1×1 image of a fixed colour (for exercising the overlay). -/
def imgD : Img := ⟨1, 1, fun _ _ => (200, 100, 50)⟩

/-! ## Supporting lemmas -/

/-- Mean-square (Cauchy–Schwarz) inequality for a 7×7 window sum. -/
lemma wsum_sq_le (f : ℕ → ℕ → ℚ) (x y : ℕ) :
    (wsum f x y) ^ 2 ≤ 49 * wsum (fun a b => f a b * f a b) x y := by
  have h := sq_sum_le_card_mul_sum_sq (s := win) (f := fun p => f (x + p.1) (y + p.2))
  have hcard : (win.card : ℚ) = 49 := by norm_num [win]
  simp only [wsum]
  calc (∑ p ∈ win, f (x + p.1) (y + p.2)) ^ 2
      ≤ (win.card : ℚ) * ∑ p ∈ win, f (x + p.1) (y + p.2) ^ 2 := h
    _ = 49 * ∑ p ∈ win, f (x + p.1) (y + p.2) * f (x + p.1) (y + p.2) := by
        rw [hcard]; congr 1; exact Finset.sum_congr rfl fun _ _ => by ring

lemma wsum_sub (g1 g2 : ℕ → ℕ → ℚ) (x y : ℕ) :
    wsum (fun a b => g1 a b - g2 a b) x y = wsum g1 x y - wsum g2 x y := by
  simp [wsum, Finset.sum_sub_distrib]

lemma wsum_sq_sub (g1 g2 : ℕ → ℕ → ℚ) (x y : ℕ) :
    wsum (fun a b => (g1 a b - g2 a b) * (g1 a b - g2 a b)) x y
      = wsum (fun a b => g1 a b * g1 a b) x y - 2 * wsum (fun a b => g1 a b * g2 a b) x y
        + wsum (fun a b => g2 a b * g2 a b) x y := by
  simp only [wsum, Finset.mul_sum, ← Finset.sum_sub_distrib, ← Finset.sum_add_distrib]
  exact Finset.sum_congr rfl fun p _ => by ring

lemma winStats_A2_le_B2 (g1 g2 : ℕ → ℕ → ℚ) (dr x y : ℕ) :
    (winStats g1 g2 dr x y).A2 ≤ (winStats g1 g2 dr x y).B2 := by
  have key := wsum_sq_le (fun a b => g1 a b - g2 a b) x y
  rw [wsum_sub, wsum_sq_sub] at key
  simp only [winStats, wmean, covNorm]
  nlinarith [key]

lemma winStats_A1_le_B1 (g1 g2 : ℕ → ℕ → ℚ) (dr x y : ℕ) :
    (winStats g1 g2 dr x y).A1 ≤ (winStats g1 g2 dr x y).B1 := by
  simp only [winStats]
  nlinarith [mul_self_nonneg (wmean g1 x y - wmean g2 x y)]

lemma wsum_nonneg (f : ℕ → ℕ → ℚ) (hf : ∀ a b, 0 ≤ f a b) (x y : ℕ) :
    0 ≤ wsum f x y :=
  Finset.sum_nonneg fun _ _ => hf _ _

lemma ssimC1_nonneg (dr : ℕ) : 0 ≤ ssimC1 dr := sq_nonneg _

lemma ssimC2_nonneg (dr : ℕ) : 0 ≤ ssimC2 dr := sq_nonneg _

lemma winStats_B1_nonneg (g1 g2 : ℕ → ℕ → ℚ) (dr x y : ℕ) :
    0 ≤ (winStats g1 g2 dr x y).B1 := by
  simp only [winStats]
  nlinarith [mul_self_nonneg (wmean g1 x y), mul_self_nonneg (wmean g2 x y), ssimC1_nonneg dr]

lemma variance_nonneg (f : ℕ → ℕ → ℚ) (x y : ℕ) :
    0 ≤ wmean (fun a b => f a b * f a b) x y - wmean f x y * wmean f x y := by
  have key := wsum_sq_le f x y
  simp only [wmean]
  nlinarith [key]

lemma winStats_B2_nonneg (g1 g2 : ℕ → ℕ → ℚ) (dr x y : ℕ) :
    0 ≤ (winStats g1 g2 dr x y).B2 := by
  have h1 := variance_nonneg g1 x y
  have h2 := variance_nonneg g2 x y
  simp only [winStats, covNorm]
  nlinarith [h1, h2, ssimC2_nonneg dr]

lemma wmean_nonneg (f : ℕ → ℕ → ℚ) (hf : ∀ a b, 0 ≤ f a b) (x y : ℕ) :
    0 ≤ wmean f x y :=
  div_nonneg (wsum_nonneg f hf x y) (by norm_num)

lemma winStats_A1_nonneg (g1 g2 : ℕ → ℕ → ℚ) (dr x y : ℕ)
    (h1 : ∀ a b, 0 ≤ g1 a b) (h2 : ∀ a b, 0 ≤ g2 a b) :
    0 ≤ (winStats g1 g2 dr x y).A1 := by
  have u1 := wmean_nonneg g1 h1 x y
  have u2 := wmean_nonneg g2 h2 x y
  simp only [winStats]
  nlinarith [ssimC1_nonneg dr]

lemma ssimS_le_one (g1 g2 : ℕ → ℕ → ℚ) (dr x y : ℕ)
    (h1 : ∀ a b, 0 ≤ g1 a b) (h2 : ∀ a b, 0 ≤ g2 a b)
    (hB : (winStats g1 g2 dr x y).B1 * (winStats g1 g2 dr x y).B2 ≠ 0) :
    ssimS g1 g2 dr x y ≤ 1 := by
  set w := winStats g1 g2 dr x y with hw
  have hB1 : 0 < w.B1 :=
    lt_of_le_of_ne (winStats_B1_nonneg g1 g2 dr x y) (by rintro h; exact hB (by rw [← h]; ring))
  have hB2 : 0 < w.B2 := by
    refine lt_of_le_of_ne (winStats_B2_nonneg g1 g2 dr x y) ?_
    rintro h; exact hB (by rw [← h]; ring)
  have hA1B1 : w.A1 ≤ w.B1 := winStats_A1_le_B1 g1 g2 dr x y
  have hA2B2 : w.A2 ≤ w.B2 := winStats_A2_le_B2 g1 g2 dr x y
  have hA1 : 0 ≤ w.A1 := winStats_A1_nonneg g1 g2 dr x y h1 h2
  rw [ssimS, div_le_one (by positivity)]
  rcases le_or_lt 0 w.A2 with hA2 | hA2
  · exact mul_le_mul hA1B1 hA2B2 hA2 hB1.le
  · nlinarith

lemma winStats_self_A1 (g : ℕ → ℕ → ℚ) (dr x y : ℕ) :
    (winStats g g dr x y).A1 = (winStats g g dr x y).B1 := by
  simp only [winStats]; ring

lemma winStats_self_A2 (g : ℕ → ℕ → ℚ) (dr x y : ℕ) :
    (winStats g g dr x y).A2 = (winStats g g dr x y).B2 := by
  simp only [winStats]; ring

lemma winStats_B1_pos (g1 g2 : ℕ → ℕ → ℚ) {dr : ℕ} (hdr : dr ≠ 0) (x y : ℕ) :
    0 < (winStats g1 g2 dr x y).B1 := by
  have hC : 0 < ssimC1 dr := by
    have : (0 : ℚ) < (dr : ℚ) := by exact_mod_cast Nat.pos_of_ne_zero hdr
    simp only [ssimC1]
    positivity
  simp only [winStats]
  nlinarith [mul_self_nonneg (wmean g1 x y), mul_self_nonneg (wmean g2 x y), hC]

lemma winStats_B2_pos (g1 g2 : ℕ → ℕ → ℚ) {dr : ℕ} (hdr : dr ≠ 0) (x y : ℕ) :
    0 < (winStats g1 g2 dr x y).B2 := by
  have hC : 0 < ssimC2 dr := by
    have : (0 : ℚ) < (dr : ℚ) := by exact_mod_cast Nat.pos_of_ne_zero hdr
    simp only [ssimC2]
    positivity
  have h1 := variance_nonneg g1 x y
  have h2 := variance_nonneg g2 x y
  simp only [winStats, covNorm]
  nlinarith [h1, h2]

lemma ssimS_self (g : ℕ → ℕ → ℚ) {dr : ℕ} (hdr : dr ≠ 0) (x y : ℕ) :
    ssimS g g dr x y = 1 := by
  rw [ssimS, winStats_self_A1, winStats_self_A2]
  exact div_self (by exact ne_of_gt (mul_pos (winStats_B1_pos g g hdr x y) (winStats_B2_pos g g hdr x y)))

lemma not_ssimUndefined_self (g : ℕ → ℕ → ℚ) (w h : ℕ) {dr : ℕ} (hdr : dr ≠ 0) :
    ¬ ssimUndefined g g w h dr := by
  rintro ⟨p, -, hp⟩
  exact absurd hp (by exact ne_of_gt (mul_pos (winStats_B1_pos g g hdr p.1 p.2) (winStats_B2_pos g g hdr p.1 p.2)))

lemma mssim_self (g : ℕ → ℕ → ℚ) {w h dr : ℕ} (hw : 7 ≤ w) (hh : 7 ≤ h) (hdr : dr ≠ 0) :
    mssim g g w h dr = 1 := by
  rw [mssim]
  rw [Finset.sum_congr rfl fun p _ => ssimS_self g hdr p.1 p.2]
  rw [Finset.sum_const]
  have hcard : (interior w h).card = (w - 6) * (h - 6) := by simp [interior]
  rw [hcard]
  have hpos : 0 < (w - 6) * (h - 6) := by
    have : 0 < w - 6 := by omega
    have : 0 < h - 6 := by omega
    positivity
  rw [nsmul_eq_mul, mul_one]
  exact div_self (by exact_mod_cast hpos.ne')

lemma bins_card_q : ((bins.card : ℕ) : ℚ) = 256 := by norm_num [bins]

lemma centered_sum (f g : ℕ → ℚ) :
    ∑ b ∈ bins, (f b - (∑ c ∈ bins, f c) / 256) * (g b - (∑ c ∈ bins, g c) / 256)
      = (∑ b ∈ bins, f b * g b) - (∑ b ∈ bins, f b) * (∑ b ∈ bins, g b) / 256 := by
  simp only [sub_mul, mul_sub, Finset.sum_sub_distrib, ← Finset.sum_mul, ← Finset.mul_sum,
    Finset.sum_const, nsmul_eq_mul, bins_card_q]
  ring

lemma d_eq (f : ℕ → ℚ) :
    (∑ b ∈ bins, f b ^ 2) - (∑ b ∈ bins, f b) * (∑ b ∈ bins, f b) / 256
      = ∑ b ∈ bins, (f b - (∑ c ∈ bins, f c) / 256) ^ 2 := by
  have h := centered_sum f f
  have hsq : ∑ b ∈ bins, f b * f b = ∑ b ∈ bins, f b ^ 2 :=
    Finset.sum_congr rfl fun b _ => (sq (f b)).symm
  rw [hsq] at h
  rw [← h]
  exact Finset.sum_congr rfl fun b _ => (sq _).symm

lemma d_nonneg (f : ℕ → ℚ) :
    0 ≤ (∑ b ∈ bins, f b ^ 2) - (∑ b ∈ bins, f b) * (∑ b ∈ bins, f b) / 256 := by
  rw [d_eq]
  exact Finset.sum_nonneg fun b _ => sq_nonneg _

lemma num_sq_le (f g : ℕ → ℚ) :
    ((∑ b ∈ bins, f b * g b) - (∑ b ∈ bins, f b) * (∑ b ∈ bins, g b) / 256) ^ 2
      ≤ ((∑ b ∈ bins, f b ^ 2) - (∑ b ∈ bins, f b) * (∑ b ∈ bins, f b) / 256)
        * ((∑ b ∈ bins, g b ^ 2) - (∑ b ∈ bins, g b) * (∑ b ∈ bins, g b) / 256) := by
  rw [← centered_sum f g, d_eq f, d_eq g]
  exact Finset.sum_mul_sq_le_sq_mul_sq bins _ _

/-- The histogram self-correlation is exactly 1 (both through the
degenerate-denominator branch and the generic branch). -/
lemma histCorrel_self (h : ℕ → ℕ) : histCorrel h h = 1 := by
  simp only [histCorrel]
  have hsq : ∑ b ∈ bins, ((h b : ℚ)) * ((h b : ℚ)) = ∑ b ∈ bins, ((h b : ℚ)) ^ 2 :=
    Finset.sum_congr rfl fun b _ => (sq _).symm
  rw [hsq]
  set d : ℚ := (∑ b ∈ bins, ((h b : ℚ)) ^ 2)
      - (∑ b ∈ bins, (h b : ℚ)) * (∑ b ∈ bins, (h b : ℚ)) / 256 with hd
  split_ifs with h0
  · rfl
  · have hdne : d ≠ 0 := fun hz => h0 (by rw [hz]; ring)
    have hdnn : (0 : ℚ) ≤ d := d_nonneg _
    have : ((d : ℝ)) * ((d : ℝ)) = ((d : ℝ)) ^ 2 := (sq _).symm
    rw [this, Real.sqrt_sq (by exact_mod_cast hdnn)]
    exact div_self (by exact_mod_cast hdne)

lemma histCorrel_le_one (h1 h2 : ℕ → ℕ) : histCorrel h1 h2 ≤ 1 := by
  simp only [histCorrel]
  split_ifs with h0
  · exact le_refl 1
  · set num : ℚ := (∑ b ∈ bins, (h1 b : ℚ) * (h2 b : ℚ))
        - (∑ b ∈ bins, (h1 b : ℚ)) * (∑ b ∈ bins, (h2 b : ℚ)) / 256 with hnum
    set d1 : ℚ := (∑ b ∈ bins, (h1 b : ℚ) ^ 2)
        - (∑ b ∈ bins, (h1 b : ℚ)) * (∑ b ∈ bins, (h1 b : ℚ)) / 256 with hd1
    set d2 : ℚ := (∑ b ∈ bins, (h2 b : ℚ) ^ 2)
        - (∑ b ∈ bins, (h2 b : ℚ)) * (∑ b ∈ bins, (h2 b : ℚ)) / 256 with hd2
    have hd1n : (0 : ℚ) ≤ d1 := d_nonneg _
    have hd2n : (0 : ℚ) ≤ d2 := d_nonneg _
    have hprod : (0 : ℚ) < d1 * d2 :=
      lt_of_le_of_ne (mul_nonneg hd1n hd2n) (Ne.symm h0)
    have hsqrtpos : 0 < Real.sqrt ((d1 : ℝ) * (d2 : ℝ)) := by
      rw [Real.sqrt_pos]
      exact_mod_cast hprod
    rw [div_le_one hsqrtpos]
    rcases le_or_lt (num : ℝ) 0 with hn | hn
    · exact hn.trans (Real.sqrt_nonneg _)
    · have hkey : ((num : ℝ)) ^ 2 ≤ (d1 : ℝ) * (d2 : ℝ) := by
        have := num_sq_le (fun b => (h1 b : ℚ)) (fun b => (h2 b : ℚ))
        rw [← hnum, ← hd1, ← hd2] at this
        exact_mod_cast this
      exact (Real.le_sqrt hn.le (by positivity)).mpr hkey

lemma pixelSimilarity_self (i : Img) : pixelSimilarity i i = 1 := by
  simp [pixelSimilarity, chanAbsDiff]

lemma chanAbsDiff_nonneg (p q : RGB) : 0 ≤ chanAbsDiff p q := by
  simp only [chanAbsDiff]
  positivity

lemma pixelSimilarity_le_one (i1 i2 : Img) : pixelSimilarity i1 i2 ≤ 1 := by
  have h : 0 ≤ (∑ p ∈ coords i1.width i1.height, chanAbsDiff (i1.pix p.1 p.2) (i2.pix p.1 p.2)) /
      (3 * (i1.width : ℚ) * (i1.height : ℚ)) / 255 := by
    apply div_nonneg _ (by norm_num)
    apply div_nonneg (Finset.sum_nonneg fun p _ => chanAbsDiff_nonneg _ _)
    positivity
  simp only [pixelSimilarity]
  linarith

lemma hist_sim_self (i : Img) : calculate_histogram_similarity i i = 1 := by
  simp only [calculate_histogram_similarity, histCorrel_self]
  rw [Fin.sum_univ_three]
  norm_num

lemma hist_sim_nonneg (i1 i2 : Img) : 0 ≤ calculate_histogram_similarity i1 i2 := by
  apply div_nonneg _ (by norm_num)
  exact Finset.sum_nonneg fun c _ => le_max_left 0 _

lemma hist_sim_le_one (i1 i2 : Img) : calculate_histogram_similarity i1 i2 ≤ 1 := by
  rw [calculate_histogram_similarity, div_le_one (by norm_num)]
  calc ∑ c : Fin 3, max 0 (histCorrel (calcHist i1 c) (calcHist i2 c))
      ≤ ∑ _c : Fin 3, (1 : ℝ) :=
        Finset.sum_le_sum fun c _ => max_le zero_le_one (histCorrel_le_one _ _)
    _ = 3 := by simp

lemma mssim_le_one (g1 g2 : ℕ → ℕ → ℚ) {w h : ℕ} (dr : ℕ) (hw : 7 ≤ w) (hh : 7 ≤ h)
    (h1 : ∀ a b, 0 ≤ g1 a b) (h2 : ∀ a b, 0 ≤ g2 a b)
    (hdef : ¬ ssimUndefined g1 g2 w h dr) :
    mssim g1 g2 w h dr ≤ 1 := by
  rw [mssim]
  have hcard : (interior w h).card = (w - 6) * (h - 6) := by simp [interior]
  have hpos : (0 : ℚ) < (((w - 6) * (h - 6) : ℕ) : ℚ) := by
    have : 0 < (w - 6) * (h - 6) := Nat.mul_pos (by omega) (by omega)
    exact_mod_cast this
  rw [div_le_one hpos]
  calc ∑ p ∈ interior w h, ssimS g1 g2 dr p.1 p.2
      ≤ ∑ _p ∈ interior w h, (1 : ℚ) :=
        Finset.sum_le_sum fun p hp =>
          ssimS_le_one g1 g2 dr p.1 p.2 h1 h2 fun hz => hdef ⟨p, hp, hz⟩
    _ = (((w - 6) * (h - 6) : ℕ) : ℚ) := by
        rw [Finset.sum_const, hcard, nsmul_eq_mul, mul_one]

lemma metrics_bounds (i1 i2 : Img) (m : Metrics)
    (hm : calculate_similarity_metrics i1 i2 = Except.ok m) :
    0 ≤ m.ssim ∧ m.ssim ≤ 1 ∧ 0 ≤ m.pixel_similarity ∧ m.pixel_similarity ≤ 1 ∧
      0 ≤ m.histogram_similarity ∧ m.histogram_similarity ≤ 1 := by
  rw [calculate_similarity_metrics] at hm
  split_ifs at hm with hdim hzero hwin
  simp only [Except.ok.injEq] at hm
  subst hm
  push_neg at hwin
  refine ⟨?_, ?_, le_max_left 0 _, max_le zero_le_one (pixelSimilarity_le_one i1 i2),
      hist_sim_nonneg i1 i2, hist_sim_le_one i1 i2⟩
  · dsimp only
    split_ifs with hu
    · exact le_refl 0
    · exact le_max_left 0 _
  · dsimp only
    split_ifs with hu
    · exact zero_le_one
    · exact max_le zero_le_one
        (mssim_le_one _ _ _ hwin.1 hwin.2 (fun a b => Nat.cast_nonneg _)
          (fun a b => Nat.cast_nonneg _) hu)

lemma resize_self (i1 i2 : Img) (hw : i1.width = i2.width) (hh : i1.height = i2.height) :
    resize_images_to_match i1 i2 = (i1, i2) := by
  simp [resize_images_to_match, padToCanvas, hw, hh]

lemma compare_images_error_eq (i1 i2 : Img) (t : Option ℚ) (e : String)
    (hm : calculate_similarity_metrics (resize_images_to_match i1 i2).1
        (resize_images_to_match i1 i2).2 = Except.error e) :
    compare_images i1 i2 t = ⟨0, False, none, none, some e⟩ := by
  simp only [compare_images, hm]

lemma compare_images_ok_eq (i1 i2 : Img) (t : Option ℚ) (m : Metrics)
    (hm : calculate_similarity_metrics (resize_images_to_match i1 i2).1
        (resize_images_to_match i1 i2).2 = Except.ok m) :
    (compare_images i1 i2 t).similarity_score
        = ((m.ssim : ℝ) + (m.pixel_similarity : ℝ) + m.histogram_similarity) / 3 * 100
    ∧ ((compare_images i1 i2 t).is_match ↔
        ((t.getD 95 : ℚ) : ℝ) / 100
          ≤ ((m.ssim : ℝ) + (m.pixel_similarity : ℝ) + m.histogram_similarity) / 3)
    ∧ (compare_images i1 i2 t).error = none
    ∧ (compare_images i1 i2 t).detailed_scores
        = some ((m.ssim : ℝ) * 100, (m.pixel_similarity : ℝ) * 100, m.histogram_similarity * 100) := by
  simp only [compare_images, hm]
  exact ⟨trivial, trivial, trivial, trivial⟩

lemma wmean_const (c : ℚ) (x y : ℕ) : wmean (fun _ _ => c) x y = c := by
  simp [wmean, wsum, win, Finset.sum_const]

lemma winStats_const_B2 (c : ℚ) (x y : ℕ) :
    (winStats (fun _ _ => c) (fun _ _ => c) 0 x y).B2 = 0 := by
  simp only [winStats, wmean_const, ssimC2, covNorm]
  push_cast
  ring

set_option maxRecDepth 8000 in
lemma dataRange_white : dataRange whiteImg7 = 0 := by decide

lemma gray_white : (fun x y => ((grayOf (whiteImg7.pix x y) : ℕ) : ℚ)) = fun _ _ => (255 : ℚ) := by
  funext x y
  norm_num [whiteImg7, grayOf, whitePixel]

lemma ssimUndefined_white :
    ssimUndefined (fun x y => ((grayOf (whiteImg7.pix x y) : ℕ) : ℚ))
      (fun x y => ((grayOf (whiteImg7.pix x y) : ℕ) : ℚ)) 7 7 (dataRange whiteImg7) := by
  rw [gray_white, dataRange_white]
  refine ⟨(0, 0), by decide, ?_⟩
  rw [winStats_const_B2]
  ring

lemma metrics_white :
    calculate_similarity_metrics whiteImg7 whiteImg7 =
      Except.ok ⟨0, 1, calculate_histogram_similarity whiteImg7 whiteImg7⟩ := by
  rw [calculate_similarity_metrics,
    if_neg (by simp [whiteImg7]), if_neg (by simp [whiteImg7]), if_neg (by simp [whiteImg7])]
  rw [show whiteImg7.width = 7 from rfl, show whiteImg7.height = 7 from rfl]
  simp only [Metrics.mk.injEq, Except.ok.injEq]
  refine ⟨?_, ?_⟩
  · rw [if_pos ssimUndefined_white]
  · rw [pixelSimilarity_self]
    norm_num

lemma not_ssimUndefined_gray (i1 i2 : Img) {dr : ℕ} (hdr : dr ≠ 0) (w h : ℕ) :
    ¬ ssimUndefined (fun x y => ((grayOf (i1.pix x y) : ℕ) : ℚ))
        (fun x y => ((grayOf (i2.pix x y) : ℕ) : ℚ)) w h dr := by
  rintro ⟨p, -, hp⟩
  exact absurd hp
    (ne_of_gt (mul_pos (winStats_B1_pos _ _ hdr p.1 p.2) (winStats_B2_pos _ _ hdr p.1 p.2)))

lemma metrics_self_ok (i : Img) (hw : 7 ≤ i.width) (hh : 7 ≤ i.height)
    (hdr : dataRange i ≠ 0) :
    calculate_similarity_metrics i i = Except.ok ⟨1, 1, 1⟩ := by
  rw [calculate_similarity_metrics,
    if_neg (by simp), if_neg (by omega), if_neg (by omega)]
  simp only [Metrics.mk.injEq, Except.ok.injEq]
  refine ⟨?_, ?_, hist_sim_self i⟩
  · rw [if_neg (not_ssimUndefined_gray i i hdr i.width i.height),
      mssim_self _ hw hh hdr]
    norm_num
  · rw [pixelSimilarity_self]
    norm_num

lemma metrics_tiny_error :
    calculate_similarity_metrics tinyImg tinyImg =
      Except.error "win_size exceeds image extent" := by
  rw [calculate_similarity_metrics, if_neg (by simp), if_neg (by norm_num [tinyImg]),
    if_pos (by norm_num [tinyImg])]

lemma metrics_white_resized :
    calculate_similarity_metrics (resize_images_to_match whiteImg7 whiteImg7).1
      (resize_images_to_match whiteImg7 whiteImg7).2 =
      Except.ok ⟨0, 1, calculate_histogram_similarity whiteImg7 whiteImg7⟩ := by
  rw [resize_self whiteImg7 whiteImg7 rfl rfl]
  exact metrics_white

/-- C1 (counterexample): for the all-white 7×7 image compared against
itself at threshold 95, the similarity score is 200/3 ≈ 66.7 < 99.9 and
`is_match` is false: `data_range = 0` degenerates the SSIM term to NaN,
which `max(0, ·)` floors to 0. -/
theorem c1_counterexample :
    (compare_images whiteImg7 whiteImg7 (some 95)).similarity_score < 99.9 ∧
    ¬ (compare_images whiteImg7 whiteImg7 (some 95)).is_match := by
  obtain ⟨hscore, hmatch, -, -⟩ :=
    compare_images_ok_eq whiteImg7 whiteImg7 (some 95) _ metrics_white_resized
  constructor
  · rw [hscore]
    norm_num [hist_sim_self]
  · rw [hmatch]
    norm_num [hist_sim_self]

/-- C1 (amended): for every image of size at least 7×7 whose grayscale is
not constant (`data_range ≠ 0`), comparing the image with itself at
threshold 95 yields similarity score exactly 100 and `is_match = true`. -/
theorem c1_identical_match (i : Img) (hw : 7 ≤ i.width) (hh : 7 ≤ i.height)
    (hdr : dataRange i ≠ 0) :
    (compare_images i i (some 95)).similarity_score = 100 ∧
    (compare_images i i (some 95)).is_match := by
  have hm : calculate_similarity_metrics (resize_images_to_match i i).1
      (resize_images_to_match i i).2 = Except.ok ⟨1, 1, 1⟩ := by
    rw [resize_self i i rfl rfl]
    exact metrics_self_ok i hw hh hdr
  obtain ⟨hscore, hmatch, -, -⟩ := compare_images_ok_eq i i (some 95) _ hm
  constructor
  · rw [hscore]
    norm_num
  · rw [hmatch]
    norm_num

set_option maxRecDepth 8000 in
/-- C1 (witness): the 7×7 white image with one black pixel satisfies the
amended claim's hypotheses and conclusion. -/
theorem c1_witness :
    7 ≤ dotImg7.width ∧ 7 ≤ dotImg7.height ∧ dataRange dotImg7 ≠ 0 ∧
    ((compare_images dotImg7 dotImg7 (some 95)).similarity_score = 100 ∧
      (compare_images dotImg7 dotImg7 (some 95)).is_match) :=
  ⟨by norm_num [dotImg7], by norm_num [dotImg7], by decide,
   c1_identical_match dotImg7 (by norm_num [dotImg7]) (by norm_num [dotImg7]) (by decide)⟩

/-- C2 (counterexample): for the valid non-empty 1×1 white image compared
with itself at threshold 0, the returned score is 0 (so `score ≥ 0`
holds) yet `is_match` is false — inside `compare_images` the SSIM call
raises (`win_size exceeds image extent`) and the error path hard-codes
`is_match = False`, breaking `is_match = (score ≥ t)` at `t = 0`. -/
theorem c2_counterexample :
    (0 : ℝ) ≤ (compare_images tinyImg tinyImg (some 0)).similarity_score ∧
    ¬ (compare_images tinyImg tinyImg (some 0)).is_match := by
  have hm : calculate_similarity_metrics (resize_images_to_match tinyImg tinyImg).1
      (resize_images_to_match tinyImg tinyImg).2 =
      Except.error "win_size exceeds image extent" := by
    rw [resize_self tinyImg tinyImg rfl rfl]
    exact metrics_tiny_error
  rw [compare_images_error_eq tinyImg tinyImg (some 0) _ hm]
  exact ⟨le_refl 0, not_false⟩

/-- C2 (amended): an omitted threshold behaves exactly like threshold 95,
and whenever the comparison does not take the internal error path
(`error = none`), the verdict is exactly the threshold test
`is_match ↔ t ≤ similarity_score`. -/
theorem c2_threshold_semantics (i1 i2 : Img) (t : ℚ) :
    compare_images i1 i2 none = compare_images i1 i2 (some 95) ∧
    ((compare_images i1 i2 (some t)).error = none →
      ((compare_images i1 i2 (some t)).is_match ↔
        ((t : ℚ) : ℝ) ≤ (compare_images i1 i2 (some t)).similarity_score)) := by
  refine ⟨rfl, fun herr => ?_⟩
  rcases hc : calculate_similarity_metrics (resize_images_to_match i1 i2).1
      (resize_images_to_match i1 i2).2 with e | m
  · rw [compare_images_error_eq i1 i2 (some t) e hc] at herr
    exact absurd herr (by simp)
  · obtain ⟨hscore, hmatch, -, -⟩ := compare_images_ok_eq i1 i2 (some t) m hc
    rw [hscore, hmatch, Option.getD_some]
    exact div_le_iff₀ (by norm_num)

/-- C2 (witness): at the 7×7 white pair and threshold 50 the comparison
succeeds (`error = none`) and the verdict equals the threshold test. -/
theorem c2_witness :
    (compare_images whiteImg7 whiteImg7 (some 50)).error = none ∧
    ((compare_images whiteImg7 whiteImg7 (some 50)).is_match ↔
      ((50 : ℚ) : ℝ) ≤ (compare_images whiteImg7 whiteImg7 (some 50)).similarity_score) := by
  obtain ⟨-, -, herr, -⟩ :=
    compare_images_ok_eq whiteImg7 whiteImg7 (some 50) _ metrics_white_resized
  exact ⟨herr, (c2_threshold_semantics whiteImg7 whiteImg7 50).2 herr⟩

/-- C4: whenever the internal comparison computation raises, `compare_images`
returns the zero-score non-match result with no diff image and the error
string attached — the exception is neither propagated (the function is
total) nor dropped (the message is in the `error` field). -/
theorem c4_error_result (i1 i2 : Img) (t : Option ℚ) (e : String)
    (hm : calculate_similarity_metrics (resize_images_to_match i1 i2).1
        (resize_images_to_match i1 i2).2 = Except.error e) :
    compare_images i1 i2 t =
      { similarity_score := 0, is_match := False, diff_image := none,
        detailed_scores := none, error := some e } :=
  compare_images_error_eq i1 i2 t e hm

/-- C4 (witness): the 1×1 white pair takes the error path and produces
exactly the zero-score record with the SSIM error message attached. -/
theorem c4_witness :
    compare_images tinyImg tinyImg none =
      { similarity_score := 0, is_match := False, diff_image := none,
        detailed_scores := none, error := some "win_size exceeds image extent" } :=
  c4_error_result tinyImg tinyImg none "win_size exceeds image extent"
    (by rw [resize_self tinyImg tinyImg rfl rfl]; exact metrics_tiny_error)

/-- C6: the histogram correlation of any image's channel histogram with
itself is exactly 1 (for every channel), and consequently the histogram
similarity of an image compared with itself is exactly 1. -/
theorem c6_histogram_self (i : Img) :
    (∀ c : Fin 3, histCorrel (calcHist i c) (calcHist i c) = 1) ∧
    calculate_histogram_similarity i i = 1 :=
  ⟨fun _ => histCorrel_self _, hist_sim_self i⟩

/-- C5: for every pair of images and every threshold, the returned
similarity score lies in [0, 100], and when detailed scores are present
(the success path) each of the three detailed scores lies in [0, 100];
each underlying metric is floored at 0 before aggregation. -/
theorem c5_result_bounds (i1 i2 : Img) (t : Option ℚ) :
    (0 ≤ (compare_images i1 i2 t).similarity_score ∧
      (compare_images i1 i2 t).similarity_score ≤ 100) ∧
    ((compare_images i1 i2 t).detailed_scores = none ∨
      ∃ s p h, (compare_images i1 i2 t).detailed_scores = some (s, p, h) ∧
        0 ≤ s ∧ s ≤ 100 ∧ 0 ≤ p ∧ p ≤ 100 ∧ 0 ≤ h ∧ h ≤ 100) := by
  rcases hc : calculate_similarity_metrics (resize_images_to_match i1 i2).1
      (resize_images_to_match i1 i2).2 with e | m
  · rw [compare_images_error_eq i1 i2 t e hc]
    exact ⟨⟨le_refl 0, by norm_num⟩, Or.inl rfl⟩
  · obtain ⟨hscore, -, -, hdet⟩ := compare_images_ok_eq i1 i2 t m hc
    obtain ⟨hs0, hs1, hp0, hp1, hh0, hh1⟩ := metrics_bounds _ _ m hc
    have hs0R : (0 : ℝ) ≤ (m.ssim : ℝ) := by exact_mod_cast hs0
    have hs1R : (m.ssim : ℝ) ≤ 1 := by exact_mod_cast hs1
    have hp0R : (0 : ℝ) ≤ (m.pixel_similarity : ℝ) := by exact_mod_cast hp0
    have hp1R : (m.pixel_similarity : ℝ) ≤ 1 := by exact_mod_cast hp1
    refine ⟨⟨?_, ?_⟩, Or.inr ⟨(m.ssim : ℝ) * 100, (m.pixel_similarity : ℝ) * 100,
      m.histogram_similarity * 100, hdet, ?_, ?_, ?_, ?_, ?_, ?_⟩⟩
    · rw [hscore]; nlinarith
    · rw [hscore]; nlinarith
    · nlinarith
    · nlinarith
    · nlinarith
    · nlinarith
    · nlinarith
    · nlinarith

lemma padToCanvas_spec (i : Img) (tw th : ℕ) (_hw : i.width ≤ tw) (_hh : i.height ≤ th) :
    (padToCanvas i tw th).width = tw ∧ (padToCanvas i tw th).height = th ∧
    (∀ x y, x < i.width → y < i.height → (padToCanvas i tw th).pix x y = i.pix x y) ∧
    (∀ x y, i.width ≤ x ∨ i.height ≤ y → x < tw → y < th →
      (padToCanvas i tw th).pix x y = whitePixel) := by
  rw [padToCanvas]
  split_ifs with hc
  · refine ⟨hc.1, hc.2, fun x y _ _ => rfl, fun x y hout hx hy => ?_⟩
    rcases hout with hox | hoy
    · omega
    · omega
  · refine ⟨rfl, rfl, fun x y hx hy => ?_, fun x y hout hx hy => ?_⟩
    · exact if_pos ⟨hx, hy⟩
    · exact if_neg (by omega)

/-- C3: whenever the two images differ in width or height, dimension
reconciliation pads each to the element-wise maximum size, keeps every
original pixel at its place in the top-left region, and fills every added
pixel with white — nothing is cropped or scaled, and the operation is
total (no exception). -/
theorem c3_dimension_reconciliation (i1 i2 : Img)
    (_hne : i1.width ≠ i2.width ∨ i1.height ≠ i2.height) :
    ReconciledSpec i1 i2 := by
  obtain ⟨w1, h1, p1, q1⟩ := padToCanvas_spec i1 (max i1.width i2.width)
    (max i1.height i2.height) (le_max_left _ _) (le_max_left _ _)
  obtain ⟨w2, h2, p2, q2⟩ := padToCanvas_spec i2 (max i1.width i2.width)
    (max i1.height i2.height) (le_max_right _ _) (le_max_right _ _)
  exact ⟨w1, h1, w2, h2, p1, fun x y hout hx hy => q1 x y hout hx hy,
    p2, fun x y hout hx hy => q2 x y hout hx hy⟩

/-- C3 (witness): a 2×1 and a 1×1 image differ in width; reconciliation
meets the contract on them. -/
theorem c3_witness : (imgA.width ≠ imgB.width ∨ imgA.height ≠ imgB.height) ∧
    ReconciledSpec imgA imgB :=
  ⟨by norm_num [imgA, imgB], c3_dimension_reconciliation imgA imgB (by norm_num [imgA, imgB])⟩

lemma blendChan_zero (a b : ℕ) : blendChan a b 0 = a := by
  simp [blendChan]

lemma blendChan_one (a b : ℕ) : blendChan a b 1 = b := by
  rw [blendChan, show (a : ℚ) + 1 * ((b : ℚ) - (a : ℚ)) = (b : ℚ) by ring]
  simp

lemma blendRGBA_zero (p q : PixelRGBA) : blendRGBA p q 0 = p := by
  simp [blendRGBA, blendChan_zero]

lemma blendRGBA_one (p q : PixelRGBA) : blendRGBA p q 1 = q := by
  simp [blendRGBA, blendChan_one]

lemma composite_transparent_src (dst : PixelRGBA) (hd : dst.a = 255) (r g b : ℕ) :
    alphaCompositePix dst ⟨r, g, b, 0⟩ = ⟨dst.r, dst.g, dst.b, 255⟩ := by
  rw [alphaCompositePix]
  rw [if_neg (by norm_num [hd])]
  simp only [roundChan, hd]
  norm_num
  decide

lemma composite_opaque_src (dst : PixelRGBA) (r g b : ℕ) :
    alphaCompositePix dst ⟨r, g, b, 255⟩ = ⟨r, g, b, 255⟩ := by
  rw [alphaCompositePix]
  rw [if_neg (by norm_num)]
  simp only [roundChan]
  norm_num
  decide

/-- C7: for equal-size images, the overlay at opacity 0 is pixel-identical
to the second image and the overlay at opacity 1 is pixel-identical to
the first (up to the RGB↔RGBA round trip). -/
theorem c7_overlay_endpoints (i1 i2 : Img)
    (hw : i1.width = i2.width) (hh : i1.height = i2.height) :
    OverlayEndpointSpec i1 i2 := by
  have hr : resize_images_to_match i1 i2 = (i1, i2) := resize_self i1 i2 hw hh
  constructor
  · refine ⟨by simp only [create_overlay, hr]; exact hw,
      by simp only [create_overlay, hr]; exact hh, fun x y => ?_⟩
    simp only [create_overlay, hr]
    rw [blendRGBA_zero, composite_transparent_src (toRGBA (i2.pix x y)) rfl 255 255 255]
    rfl
  · refine ⟨by simp only [create_overlay, hr], by simp only [create_overlay, hr],
      fun x y => ?_⟩
    simp only [create_overlay, hr]
    rw [blendRGBA_one, show toRGBA (i1.pix x y)
        = ⟨(i1.pix x y).1, (i1.pix x y).2.1, (i1.pix x y).2.2, 255⟩ from rfl,
      composite_opaque_src (toRGBA (i2.pix x y)) _ _ _]

/-- C7 (witness): two concrete equal-size 1×1 images meet the overlay
endpoint contract. -/
theorem c7_witness : (imgC.width = imgD.width ∧ imgC.height = imgD.height) ∧
    OverlayEndpointSpec imgC imgD :=
  ⟨⟨rfl, rfl⟩, c7_overlay_endpoints imgC imgD rfl rfl⟩

/-- C8: for every browser name and every pattern of step failures, the
per-capture browsing context is closed by the time `take_screenshot`
returns — on the success path (explicit `close` before `return`) and on
every failure path (the `except` handler closes any assigned context). -/
theorem c8_context_closed (name : String) (o : CaptureOracle) :
    ((take_screenshot name o).2).contextOpen = false := by
  rw [take_screenshot, take_screenshot_body, get_browser]
  rcases o with ⟨lf, lm, nc, np, g1, g2, sc, cl⟩
  by_cases hn : name ∉ supported_browsers <;>
    simp only [hn, if_true, if_false, ite_true, ite_false] <;>
    cases lf <;> cases lm <;> cases nc <;> cases np <;> cases g1 <;> cases g2 <;>
    cases sc <;> cases cl <;> rfl

/-- C10: `take_screenshot` never lets an internal error escape: for every
browser name (supported or not) and every pattern of launch/navigation/
capture failures, the call returns normally (`Except.ok`), and whenever
the `try:` body raised, the returned value is `None` — never a raised
exception. -/
theorem c10_no_exception (name : String) (o : CaptureOracle) :
    (∃ r : Option Unit, (take_screenshot name o).1 = Except.ok r) ∧
    (∀ e s, take_screenshot_body name o = (Except.error e, s) →
      (take_screenshot name o).1 = Except.ok none) := by
  constructor
  · rw [take_screenshot]
    rcases hb : take_screenshot_body name o with ⟨e | v, s⟩
    · exact ⟨none, rfl⟩
    · exact ⟨v, rfl⟩
  · intro e s hb
    rw [take_screenshot, hb]

lemma runFrom_take (stop : ℕ → Bool) (k : ℕ) (hk : stop k = true) :
    ∀ (l : List α) (n : ℕ), n ≤ k → (∀ j, n ≤ j → j < k → stop j = false) →
      runFrom stop n l = l.take (k - n) := by
  intro l
  induction l with
  | nil => intro n _ _; simp [runFrom]
  | cons c rest ih =>
    intro n hn hfalse
    rw [runFrom]
    by_cases hnk : n = k
    · subst hnk
      rw [if_pos hk, Nat.sub_self, List.take_zero]
    · have hlt : n < k := lt_of_le_of_ne hn hnk
      rw [if_neg (by rw [hfalse n le_rfl hlt]; exact Bool.false_ne_true),
        ih (n + 1) hlt (fun j hj hjk => hfalse j (by omega) hjk),
        show k - n = (k - (n + 1)) + 1 by omega, List.take_succ_cons]

/-- C9: the stop signal is checked at the top of every combination's
iteration: if the signal first becomes set when combination `k`'s turn
arrives, exactly the first `k` combinations were started, combination `k`
and all later ones never start, and only the started combinations issue
their staging/production capture pairs. -/
theorem c9_stop_signal (combos : List α) (stop : ℕ → Bool) (k : ℕ)
    (hk : stop k = true) (hbefore : ∀ j, j < k → stop j = false) :
    run_tests combos stop = combos.take k ∧
    captures_started combos stop =
      (combos.take k).flatMap fun c => [(c, true), (c, false)] := by
  have h := runFrom_take stop k hk combos 0 (Nat.zero_le k) fun j _ hj => hbefore j hj
  rw [Nat.sub_zero] at h
  exact ⟨h, by rw [captures_started, run_tests] at *; rw [h]⟩

/-- C9 (witness): with three combinations and a stop signal that is first
observed set at index 1, only the first combination (and only its two
captures) runs. -/
theorem c9_witness :
    (fun j => decide (1 ≤ j)) 1 = true ∧ (∀ j, j < 1 → (fun j => decide (1 ≤ j)) j = false) ∧
    run_tests [10, 20, 30] (fun j => decide (1 ≤ j)) = [10] ∧
    captures_started [10, 20, 30] (fun j => decide (1 ≤ j)) = [(10, true), (10, false)] := by
  refine ⟨by decide, by decide, ?_, ?_⟩
  · exact (c9_stop_signal [10, 20, 30] (fun j => decide (1 ≤ j)) 1 (by decide) (by decide)).1
  · exact (c9_stop_signal [10, 20, 30] (fun j => decide (1 ≤ j)) 1 (by decide) (by decide)).2

end VRT

